import Mathlib

/-!
Verification development for the mealgen-service meal-nutrient optimization
core.  The Go source stores every nutrient as a decimal string; it parses
with strconv.ParseFloat and re-formats with fmt.Sprintf "%.3f".  We embed
numbers as exact rationals, strings as Lean strings, parsing as a partial
decimal parser and "%.3f" as rounding to the nearest multiple of 1/1000
rendered back to a decimal string.
-/

namespace MealGen

/-- Numeric value of a decimal digit character. -/
def digitVal (c : Char) : Nat := c.toNat - 48

/-- The decimal digit character for a digit value. -/
def digitChar (d : Nat) : Char := Char.ofNat (48 + d)

/-- Little-endian decimal digit characters of `n`, with explicit fuel so the
kernel can reduce it. -/
def revDigitChars : Nat → Nat → List Char
  | 0, _ => []
  | fuel + 1, n => if n = 0 then [] else digitChar (n % 10) :: revDigitChars fuel (n / 10)

/-- Big-endian decimal rendering of a natural number, as characters. -/
def natToChars (n : Nat) : List Char :=
  if n = 0 then [digitChar 0] else (revDigitChars n n).reverse

/-- Value of a big-endian list of digit characters. -/
def natOfDigits (cs : List Char) : Nat :=
  cs.foldl (fun acc c => 10 * acc + digitVal c) 0

/-- Value of a little-endian list of digit characters. -/
def valRev : List Char → Nat
  | [] => 0
  | c :: cs => digitVal c + 10 * valRev cs

/-- Pad the decimal rendering of `k` with leading zeros to three characters
(the fractional part of a "%.3f" rendering). -/
def pad3 (k : Nat) : List Char :=
  let ds := natToChars k
  List.replicate (3 - ds.length) (digitChar 0) ++ ds

theorem digitVal_digitChar {d : Nat} (h : d < 10) : digitVal (digitChar d) = d := by
  interval_cases d <;> decide

theorem isDigit_digitChar {d : Nat} (h : d < 10) : (digitChar d).isDigit = true := by
  interval_cases d <;> decide

theorem mem_revDigitChars_isDigit :
    ∀ (fuel n : Nat) (c : Char), c ∈ revDigitChars fuel n → c.isDigit = true := by
  intro fuel
  induction fuel with
  | zero => intro n c h; simp [revDigitChars] at h
  | succ f ih =>
    intro n c h
    by_cases hn : n = 0
    · simp [revDigitChars, hn] at h
    · simp only [revDigitChars, if_neg hn, List.mem_cons] at h
      rcases h with h | h
      · subst h; exact isDigit_digitChar (Nat.mod_lt _ (by norm_num))
      · exact ih _ _ h

theorem mem_natToChars_isDigit {n : Nat} {c : Char} (h : c ∈ natToChars n) :
    c.isDigit = true := by
  unfold natToChars at h
  split at h
  · simp at h; subst h; decide
  · exact mem_revDigitChars_isDigit n n c (List.mem_reverse.mp h)

theorem valRev_revDigitChars : ∀ (fuel n : Nat), n ≤ fuel → valRev (revDigitChars fuel n) = n := by
  intro fuel
  induction fuel with
  | zero => intro n h; interval_cases n; simp [revDigitChars, valRev]
  | succ f ih =>
    intro n h
    by_cases hn : n = 0
    · simp [revDigitChars, hn, valRev]
    · rw [revDigitChars, if_neg hn, valRev, digitVal_digitChar (Nat.mod_lt _ (by norm_num)),
        ih (n / 10) (by omega)]
      omega

theorem natOfDigits_reverse (l : List Char) : natOfDigits l.reverse = valRev l := by
  induction l with
  | nil => rfl
  | cons c cs ih =>
    simp only [List.reverse_cons, natOfDigits, List.foldl_append, List.foldl_cons,
      List.foldl_nil, valRev] at *
    omega

theorem natOfDigits_natToChars (n : Nat) : natOfDigits (natToChars n) = n := by
  unfold natToChars
  split
  · subst ‹n = 0›; decide
  · rw [natOfDigits_reverse, valRev_revDigitChars n n le_rfl]

theorem natOfDigits_replicate_zero_append (j : Nat) (ds : List Char) :
    natOfDigits (List.replicate j (digitChar 0) ++ ds) = natOfDigits ds := by
  induction j with
  | zero => simp
  | succ k ih =>
    simpa [List.replicate_succ, natOfDigits, digitVal, digitChar] using ih

theorem length_revDigitChars_le :
    ∀ (j fuel n : Nat), n ≤ fuel → n < 10 ^ j → (revDigitChars fuel n).length ≤ j := by
  intro j
  induction j with
  | zero =>
    intro fuel n hf h
    interval_cases n
    cases fuel <;> simp [revDigitChars]
  | succ k ih =>
    intro fuel n hf h
    cases fuel with
    | zero => interval_cases n; simp [revDigitChars]
    | succ f =>
      by_cases hn : n = 0
      · simp [revDigitChars, hn]
      · rw [revDigitChars, if_neg hn]
        have h10 : n / 10 < 10 ^ k := by
          have := (Nat.div_lt_iff_lt_mul (show 0 < 10 by norm_num)).mpr
            (by rw [← pow_succ]; exact h)
          exact this
        have := ih f (n / 10) (by omega) h10
        simpa using this

theorem length_natToChars_le_three {k : Nat} (h : k < 1000) : (natToChars k).length ≤ 3 := by
  unfold natToChars
  split
  · simp
  · rw [List.length_reverse]
    exact length_revDigitChars_le 3 k k le_rfl (by norm_num; omega)

theorem length_pad3 {k : Nat} (h : k < 1000) : (pad3 k).length = 3 := by
  have := length_natToChars_le_three h
  simp only [pad3, List.length_append, List.length_replicate]
  omega

theorem natOfDigits_pad3 (k : Nat) : natOfDigits (pad3 k) = k := by
  simp only [pad3]
  rw [natOfDigits_replicate_zero_append, natOfDigits_natToChars]

theorem mem_pad3_isDigit {k : Nat} {c : Char} (h : c ∈ pad3 k) : c.isDigit = true := by
  simp only [pad3, List.mem_append, List.mem_replicate] at h
  rcases h with h | h
  · rw [h.2]; decide
  · exact mem_natToChars_isDigit h

/-- Model of Go `strconv.ParseFloat` on an unsigned decimal literal:
an integer part, optionally followed by a dot and a fractional part.
Anything else (including trailing garbage) fails. -/
def parseUnsigned (cs : List Char) : Option ℚ :=
  let intPart := cs.takeWhile Char.isDigit
  match cs.dropWhile Char.isDigit with
  | [] => if intPart.isEmpty then none else some (natOfDigits intPart)
  | c :: rest2 =>
    if c = dotChar then
      let fracPart := rest2.takeWhile Char.isDigit
      if (rest2.dropWhile Char.isDigit).isEmpty then
        if intPart.isEmpty && fracPart.isEmpty then none
        else some ((natOfDigits intPart : ℚ) + (natOfDigits fracPart : ℚ) / 10 ^ fracPart.length)
      else none
    else none
where dotChar : Char := '.'

/-- Model of Go `strconv.ParseFloat` (decimal literals, optional sign). -/
def parseFloat? (s : String) : Option ℚ :=
  match s.data with
  | [] => none
  | c :: cs =>
    if c = signMinus then (parseUnsigned cs).map (fun q => -q)
    else if c = signPlus then parseUnsigned cs
    else parseUnsigned s.data
where
  signMinus : Char := '-'
  signPlus : Char := '+'

/-- `parseFloatDefault` from the source: parse, defaulting to 0 on error. -/
def parseFloatDefault (s : String) : ℚ :=
  (parseFloat? s).getD 0

/-- Rounding to the nearest multiple of 1/1000, the numeric effect of
formatting with "%.3f" and re-parsing. -/
def round3 (q : ℚ) : ℚ := ((round (q * 1000) : ℤ) : ℚ) / 1000

/-- Model of `fmt.Sprintf "%.3f"`: round to three decimals and render. -/
def format3 (q : ℚ) : String :=
  let n : ℤ := round (q * 1000)
  let m : Nat := n.natAbs
  let body : List Char := natToChars (m / 1000) ++ parseUnsigned.dotChar :: pad3 (m % 1000)
  ⟨if n < 0 then parseFloat?.signMinus :: body else body⟩

theorem natToChars_ne_nil (n : Nat) : natToChars n ≠ [] := by
  unfold natToChars
  split
  · simp
  · intro h
    rw [List.reverse_eq_nil_iff] at h
    rename_i hn
    cases n with
    | zero => exact hn rfl
    | succ k => rw [revDigitChars, if_neg hn] at h; simp at h

theorem takeWhile_all {p : Char → Bool} :
    ∀ {l : List Char}, (∀ c ∈ l, p c = true) → l.takeWhile p = l := by
  intro l h
  induction l with
  | nil => rfl
  | cons c cs ih =>
    simp only [List.takeWhile_cons, h c (List.mem_cons_self _ _), if_true]
    exact congrArg (c :: ·) (ih fun d hd => h d (List.mem_cons_of_mem _ hd))

theorem dropWhile_all {p : Char → Bool} :
    ∀ {l : List Char}, (∀ c ∈ l, p c = true) → l.dropWhile p = [] := by
  intro l h
  induction l with
  | nil => rfl
  | cons c cs ih =>
    simp only [List.dropWhile_cons, h c (List.mem_cons_self _ _), if_true]
    exact ih fun d hd => h d (List.mem_cons_of_mem _ hd)

theorem takeWhile_append_stop {p : Char → Bool} {ds r : List Char} {c : Char}
    (hds : ∀ x ∈ ds, p x = true) (hc : p c = false) :
    (ds ++ c :: r).takeWhile p = ds ∧ (ds ++ c :: r).dropWhile p = c :: r := by
  induction ds with
  | nil => simp [List.takeWhile_cons, List.dropWhile_cons, hc]
  | cons d ds ih =>
    have hd : p d = true := hds d (List.mem_cons_self _ _)
    have ihh := ih fun x hx => hds x (List.mem_cons_of_mem _ hx)
    simp only [List.cons_append, List.takeWhile_cons, List.dropWhile_cons, hd, if_true,
      ihh.1, ihh.2, and_self]

theorem parseUnsigned_render (m : Nat) :
    parseUnsigned (natToChars (m / 1000) ++ parseUnsigned.dotChar :: pad3 (m % 1000)) =
      some ((m : ℚ) / 1000) := by
  have hint : ∀ c ∈ natToChars (m / 1000), c.isDigit = true := fun c hc => mem_natToChars_isDigit hc
  have hfrac : ∀ c ∈ pad3 (m % 1000), c.isDigit = true := fun c hc => mem_pad3_isDigit hc
  have hdot : parseUnsigned.dotChar.isDigit = false := by decide
  obtain ⟨htake, hdrop⟩ := takeWhile_append_stop hint hdot
  have hintne : (natToChars (m / 1000)).isEmpty = false := by
    cases hl : natToChars (m / 1000) with
    | nil => exact absurd hl (natToChars_ne_nil _)
    | cons x xs => rfl
  rw [parseUnsigned, htake, hdrop]
  simp only [if_pos rfl, takeWhile_all hfrac, dropWhile_all hfrac, List.isEmpty_nil, if_true]
  rw [natOfDigits_natToChars, natOfDigits_pad3, length_pad3 (Nat.mod_lt _ (by norm_num))]
  simp only [hintne, Bool.false_and, Bool.false_eq_true, if_false, Option.some.injEq]
  have hmod : (1000 * (m / 1000) + m % 1000 : ℕ) = m := Nat.div_add_mod m 1000
  have hcast : ((m / 1000 : ℕ) : ℚ) + ((m % 1000 : ℕ) : ℚ) / 10 ^ 3 =
      ((1000 * (m / 1000) + m % 1000 : ℕ) : ℚ) / 1000 := by
    push_cast
    ring
  rw [hcast, hmod]

theorem parseFloat?_mk_cons (c : Char) (cs : List Char) :
    parseFloat? ⟨c :: cs⟩ =
      if c = parseFloat?.signMinus then (parseUnsigned cs).map (fun q => -q)
      else if c = parseFloat?.signPlus then parseUnsigned cs
      else parseUnsigned (c :: cs) := rfl

theorem parseFloat?_format3 (q : ℚ) :
    parseFloat? (format3 q) = some (round3 q) := by
  unfold format3 round3
  set n : ℤ := round (q * 1000) with hn
  by_cases hneg : n < 0
  · simp only [if_pos hneg]
    rw [parseFloat?_mk_cons, if_pos rfl, parseUnsigned_render n.natAbs]
    have habs : ((n.natAbs : ℕ) : ℚ) = -((n : ℤ) : ℚ) := by
      have h2 : ((n.natAbs : ℕ) : ℤ) = -n := by omega
      rw [← Int.cast_natCast (R := ℚ), h2, Int.cast_neg]
    simp only [Option.map_some', Option.some.injEq]
    rw [habs]
    ring
  · simp only [if_neg hneg]
    cases hnt : natToChars (n.natAbs / 1000) with
    | nil => exact absurd hnt (natToChars_ne_nil _)
    | cons x xs =>
      have hx : x.isDigit = true := by
        refine mem_natToChars_isDigit (n := n.natAbs / 1000) ?_
        rw [hnt]; exact List.mem_cons_self _ _
      have hxm : ¬x = parseFloat?.signMinus := by
        intro he; rw [he] at hx; exact absurd hx (by decide)
      have hxp : ¬x = parseFloat?.signPlus := by
        intro he; rw [he] at hx; exact absurd hx (by decide)
      rw [List.cons_append]
      rw [parseFloat?_mk_cons]
      rw [if_neg hxm, if_neg hxp]
      rw [← List.cons_append, ← hnt]
      rw [parseUnsigned_render n.natAbs]
      have habs : ((n.natAbs : ℕ) : ℚ) = ((n : ℤ) : ℚ) := by
        have h2 : ((n.natAbs : ℕ) : ℤ) = n := by omega
        rw [← Int.cast_natCast (R := ℚ), h2]
      rw [habs]

theorem parseFloatDefault_format3 (q : ℚ) : parseFloatDefault (format3 q) = round3 q := by
  rw [parseFloatDefault, parseFloat?_format3]; rfl

theorem abs_round3_sub (q : ℚ) : |round3 q - q| ≤ 1 / 2000 := by
  have h := abs_sub_round (q * 1000)
  rw [round3]
  have : ((round (q * 1000) : ℤ) : ℚ) / 1000 - q = ((round (q * 1000) : ℤ) - q * 1000) / 1000 := by
    ring
  rw [this, abs_div, abs_of_pos (by norm_num : (0 : ℚ) < 1000)]
  rw [abs_sub_comm] at h
  linarith

theorem round3_le (q : ℚ) : round3 q ≤ q + 1 / 2000 := by
  have := abs_round3_sub q
  rw [abs_le] at this
  linarith [this.2]

theorem le_round3 (q : ℚ) : q - 1 / 2000 ≤ round3 q := by
  have := abs_round3_sub q
  rw [abs_le] at this
  linarith [this.1]

/-! ## Data model

The `Serving`, `Food`, `MacroTarget` and `FoodWithPortion` records of
`models/regeneration-models.go` and `models/request-body.go`.  Every
serving field is a string, exactly as in the source. -/

structure Serving where
  servingID : String
  servingDescription : String
  measurementDescription : String
  metricServingAmount : String
  metricServingUnit : String
  numberOfUnits : String
  calories : String
  protein : String
  carbohydrate : String
  fat : String
  sugar : String
  fiber : String
  saturatedFat : String
  monounsaturatedFat : String
  polyunsaturatedFat : String
  cholesterol : String
  sodium : String
  potassium : String
  calcium : String
  iron : String
  vitaminA : String
  vitaminB : String
  vitaminC : String
  vitaminD : String
deriving DecidableEq, Repr

structure Food where
  foodID : String
  foodName : String
  foodType : String
  brandName : String
  servings : List Serving
deriving DecidableEq, Repr

structure MacroTarget where
  calories : ℚ
  carbs : ℚ
  fats : ℚ
  proteins : ℚ
deriving DecidableEq, Repr

structure FoodWithPortion where
  name : String
  portionRatio : ℤ
deriving DecidableEq, Repr

/-! ## String helpers modelling the `strings` package -/

/-- `strings.ToLower` (ASCII-adequate model). -/
def lowerChars (s : String) : List Char := s.data.map Char.toLower

/-- Whether `needle` occurs as a contiguous sublist of `hay`
(`strings.Contains`). -/
def listContainsSub : List Char → List Char → Bool
  | [], needle => needle.isEmpty
  | c :: t, needle => needle.isPrefixOf (c :: t) || listContainsSub t needle

/-- `strings.Contains (strings.ToLower name) keyword`. -/
def lowerContains (name keyword : String) : Bool :=
  listContainsSub (lowerChars name) keyword.data

/-- `strings.EqualFold` (ASCII-adequate model). -/
def strEqFold (a b : String) : Bool :=
  lowerChars a == lowerChars b

/-! ## Serving Selector: `filterGramServings` and `ensureServingFields` -/

/-- Whether a serving's measurement description is gram-denominated. -/
def isGramServing (s : Serving) : Bool :=
  let d := lowerChars s.measurementDescription
  d == "g".data || d == "gram".data || d == "grams".data

/-- `filterGramServings`: keep gram-based servings; if none and the input
is non-empty, fall back to the list holding just the first serving. -/
def filterGramServings (servings : List Serving) : List Serving :=
  let gramServings := servings.filter isGramServing
  match gramServings, servings with
  | [], s :: _ => [s]
  | gs, _ => gs

/-- The field-by-field default pass at the end of `ensureServingFields`. -/
def applyServingDefaults (s : Serving) : Serving where
  servingID := if s.servingID = "" then "default" else s.servingID
  servingDescription := if s.servingDescription = "" then "1 serving" else s.servingDescription
  measurementDescription := if s.measurementDescription = "" then "g" else s.measurementDescription
  metricServingAmount := if s.metricServingAmount = "" then "1" else s.metricServingAmount
  metricServingUnit := if s.metricServingUnit = "" then "g" else s.metricServingUnit
  numberOfUnits := if s.numberOfUnits = "" then "1" else s.numberOfUnits
  calories := if s.calories = "" then "0" else s.calories
  protein := if s.protein = "" then "0" else s.protein
  carbohydrate := if s.carbohydrate = "" then "0" else s.carbohydrate
  fat := if s.fat = "" then "0" else s.fat
  sugar := if s.sugar = "" then "0" else s.sugar
  fiber := if s.fiber = "" then "0" else s.fiber
  saturatedFat := if s.saturatedFat = "" then "0" else s.saturatedFat
  monounsaturatedFat := if s.monounsaturatedFat = "" then "0" else s.monounsaturatedFat
  polyunsaturatedFat := if s.polyunsaturatedFat = "" then "0" else s.polyunsaturatedFat
  cholesterol := if s.cholesterol = "" then "0" else s.cholesterol
  sodium := if s.sodium = "" then "0" else s.sodium
  potassium := if s.potassium = "" then "0" else s.potassium
  calcium := if s.calcium = "" then "0" else s.calcium
  iron := if s.iron = "" then "0" else s.iron
  vitaminA := if s.vitaminA = "" then "0" else s.vitaminA
  vitaminB := if s.vitaminB = "" then "0" else s.vitaminB
  vitaminC := if s.vitaminC = "" then "0" else s.vitaminC
  vitaminD := if s.vitaminD = "" then "0" else s.vitaminD

/-- `ensureServingFields`: replace a serving missing its id or calories by
the first available serving, then default every still-empty field. -/
def ensureServingFields (selectedServing : Serving) (availableServings : List Serving) : Serving :=
  let base :=
    if selectedServing.servingID = "" ∨ selectedServing.calories = "" then
      match availableServings with
      | a :: _ => a
      | [] => selectedServing
    else selectedServing
  applyServingDefaults base

/-- The per-food serving-selection pipeline of `swapFoodItems`:
`filterGramServings` followed, when the result is non-empty, by
`ensureServingFields` called with the filtered list as the available
servings. -/
def selectServing (servings : List Serving) : Option Serving :=
  match filterGramServings servings with
  | [] => none
  | s :: rest => some (ensureServingFields s (s :: rest))

/-! ## Macro Aggregator: `calculateMealMacros` -/

/-- `calculateMealMacros`: sum parsed calories, carbs, protein and fat of
every food's first serving (parse failures contribute zero). -/
def calculateMealMacros : List Food → MacroTarget
  | [] => { calories := 0, carbs := 0, fats := 0, proteins := 0 }
  | food :: rest =>
    let acc := calculateMealMacros rest
    match food.servings with
    | [] => acc
    | serving :: _ =>
      { calories := parseFloatDefault serving.calories + acc.calories
        carbs := parseFloatDefault serving.carbohydrate + acc.carbs
        proteins := parseFloatDefault serving.protein + acc.proteins
        fats := parseFloatDefault serving.fat + acc.fats }

/-! ## Portion Scaler -/

/-- `findPortionRatio`: ratio of the first case-insensitive name match,
else `100 / len(foodWithPortions)` (Go integer division). -/
def findPortionRatio (foodName : String) (foodWithPortions : List FoodWithPortion) : ℤ :=
  match foodWithPortions.find? (fun p => strEqFold foodName p.name) with
  | some p => p.portionRatio
  | none => 100 / (foodWithPortions.length : ℤ)

/-- `parseAndMultiply`: parse then multiply, 0 on parse failure. -/
def parseAndMultiply (value : String) (multiplier : ℚ) : ℚ :=
  match parseFloat? value with
  | some parsed => parsed * multiplier
  | none => 0

/-- `adjustServingForTargetCalories`: scale every nutrient so calories hit
the target; degenerate servings are returned unchanged. -/
def adjustServingForTargetCalories (serving : Serving) (targetCalories : ℚ) : Serving :=
  match parseFloat? serving.calories with
  | none => serving
  | some currentCalories =>
    if currentCalories = 0 then serving
    else
      match parseFloat? serving.metricServingAmount with
      | none => serving
      | some currentAmount =>
        if currentAmount = 0 then serving
        else
          let multiplier := targetCalories / currentCalories
          { serving with
            metricServingAmount := format3 (currentAmount * multiplier)
            calories := format3 (currentCalories * multiplier)
            protein := format3 (parseAndMultiply serving.protein multiplier)
            carbohydrate := format3 (parseAndMultiply serving.carbohydrate multiplier)
            fat := format3 (parseAndMultiply serving.fat multiplier)
            sugar := format3 (parseAndMultiply serving.sugar multiplier)
            fiber := format3 (parseAndMultiply serving.fiber multiplier)
            saturatedFat := format3 (parseAndMultiply serving.saturatedFat multiplier)
            monounsaturatedFat := format3 (parseAndMultiply serving.monounsaturatedFat multiplier)
            polyunsaturatedFat := format3 (parseAndMultiply serving.polyunsaturatedFat multiplier)
            cholesterol := format3 (parseAndMultiply serving.cholesterol multiplier)
            sodium := format3 (parseAndMultiply serving.sodium multiplier)
            potassium := format3 (parseAndMultiply serving.potassium multiplier)
            calcium := format3 (parseAndMultiply serving.calcium multiplier)
            iron := format3 (parseAndMultiply serving.iron multiplier)
            vitaminA := format3 (parseAndMultiply serving.vitaminA multiplier)
            vitaminB := format3 (parseAndMultiply serving.vitaminB multiplier)
            vitaminC := format3 (parseAndMultiply serving.vitaminC multiplier)
            vitaminD := format3 (parseAndMultiply serving.vitaminD multiplier) }

/-- The per-food body of `adjustServingsByPortionRatio`. -/
def optimizeFood (foodWithPortions : List FoodWithPortion) (targetCalories : ℚ)
    (food : Food) : Food :=
  match food.servings with
  | [] => food
  | s :: rest =>
    let portionRatio := findPortionRatio food.foodName foodWithPortions
    let targetCaloriesForFood := targetCalories * (portionRatio : ℚ) / 100
    { food with servings := adjustServingForTargetCalories s targetCaloriesForFood :: rest }

/-- `adjustServingsByPortionRatio`. -/
def adjustServingsByPortionRatio (foods : List Food)
    (foodWithPortions : List FoodWithPortion) (targetCalories : ℚ) : List Food :=
  foods.map (optimizeFood foodWithPortions targetCalories)

/-! ## Macro Rebalancer -/

/-- `scaleServing`: multiply the gram amount and every nutrient field by
the factor, re-formatting to three decimals; non-positive factors leave
the serving untouched. -/
def scaleServing (serving : Serving) (factor : ℚ) : Serving :=
  if factor ≤ 0 then serving
  else
    { serving with
      metricServingAmount := format3 (parseFloatDefault serving.metricServingAmount * factor)
      calories := format3 (parseFloatDefault serving.calories * factor)
      protein := format3 (parseFloatDefault serving.protein * factor)
      carbohydrate := format3 (parseFloatDefault serving.carbohydrate * factor)
      fat := format3 (parseFloatDefault serving.fat * factor)
      sugar := format3 (parseFloatDefault serving.sugar * factor)
      fiber := format3 (parseFloatDefault serving.fiber * factor)
      saturatedFat := format3 (parseFloatDefault serving.saturatedFat * factor)
      monounsaturatedFat := format3 (parseFloatDefault serving.monounsaturatedFat * factor)
      polyunsaturatedFat := format3 (parseFloatDefault serving.polyunsaturatedFat * factor)
      cholesterol := format3 (parseFloatDefault serving.cholesterol * factor)
      sodium := format3 (parseFloatDefault serving.sodium * factor)
      potassium := format3 (parseFloatDefault serving.potassium * factor)
      calcium := format3 (parseFloatDefault serving.calcium * factor)
      iron := format3 (parseFloatDefault serving.iron * factor)
      vitaminA := format3 (parseFloatDefault serving.vitaminA * factor)
      vitaminB := format3 (parseFloatDefault serving.vitaminB * factor)
      vitaminC := format3 (parseFloatDefault serving.vitaminC * factor)
      vitaminD := format3 (parseFloatDefault serving.vitaminD * factor) }

/-- The whole-food fat keyword list from `isWholeFoodFat`. -/
def fatKeywords : List String :=
  ["avocado", "almond", "walnut", "pecan", "cashew", "pistachio", "hazelnut", "macadamia",
   "peanut", "nut butter", "peanut butter", "almond butter", "tahini", "sesame",
   "sunflower seed", "pumpkin seed", "chia", "flax", "hemp", "olive oil", "olives", "cheese"]

/-- `isWholeFoodFat`. -/
def isWholeFoodFat (name : String) : Bool :=
  fatKeywords.any (fun k => lowerContains name k)

/-- The fallback high-fat-protein test inside `findBestFatFoodIndex`. -/
def isHighFatProtein (name : String) : Bool :=
  lowerContains name "salmon" || lowerContains name "beef" || lowerContains name "egg" ||
    lowerContains name "whole milk" || lowerContains name "cheese"

/-- The starchy-carb keyword list from `isStarchyCarb`. -/
def starchKeywords : List String :=
  ["rice", "oat", "oatmeal", "potato", "sweet potato", "pasta", "quinoa", "bread",
   "tortilla", "corn", "couscous", "barley"]

/-- `isStarchyCarb`. -/
def isStarchyCarb (name : String) : Bool :=
  starchKeywords.any (fun k => lowerContains name k)

/-- Index of the first element satisfying `p`, counting from `i`
(models the Go indexed `for` loops). -/
def findIdxFrom (p : Food → Bool) : List Food → Nat → Option Nat
  | [], _ => none
  | f :: fs, i => if p f then some i else findIdxFrom p fs (i + 1)

/-- `findBestFatFoodIndex`: first whole-food fat, else first high-fat
protein, else none (Go returns -1). -/
def findBestFatFoodIndex (foods : List Food) : Option Nat :=
  match findIdxFrom (fun f => isWholeFoodFat f.foodName) foods 0 with
  | some i => some i
  | none => findIdxFrom (fun f => isHighFatProtein f.foodName) foods 0

/-- The index-collecting loop of `findStarchyCarbIndexes`. -/
def starchyIdxAux : List Food → Nat → List Nat
  | [], _ => []
  | f :: fs, i =>
    if isStarchyCarb f.foodName then i :: starchyIdxAux fs (i + 1)
    else starchyIdxAux fs (i + 1)

/-- `findStarchyCarbIndexes`. -/
def findStarchyCarbIndexes (foods : List Food) : List Nat :=
  starchyIdxAux foods 0

/-- `foods[i].Servings[0] = scaleServing(foods[i].Servings[0], factor)`,
guarded by `len(foods[i].Servings) > 0`. -/
def scaleAt (foods : List Food) (i : Nat) (factor : ℚ) : List Food :=
  match foods.get? i with
  | none => foods
  | some f =>
    match f.servings with
    | [] => foods
    | s :: rest => foods.set i { f with servings := scaleServing s factor :: rest }

/-- The fat-deficit block of a rebalancing pass (`totals` are the macros
computed at the start of the pass). -/
def fatStep (totals target : MacroTarget) (foods : List Food) : List Food :=
  if totals.fats < target.fats * (1 - 1 / 20) then
    let neededFat := target.fats * (1 - 1 / 20) - totals.fats
    match findBestFatFoodIndex foods with
    | none => foods
    | some idx =>
      match foods.get? idx with
      | none => foods
      | some f =>
        match f.servings with
        | [] => foods
        | serving :: _ =>
          let fatPerUnit := parseFloatDefault serving.fat
          if 0 < fatPerUnit then
            scaleAt foods idx (1 + min (3 / 5) (neededFat / fatPerUnit * (4 / 5)))
          else foods
  else foods

/-- The carb sum of the starchy foods (`starchCarbs` in the source). -/
def starchCarbSum (foods : List Food) (idxs : List Nat) : ℚ :=
  idxs.foldl
    (fun acc i =>
      match foods.get? i with
      | some f =>
        match f.servings with
        | s :: _ => acc + parseFloatDefault s.carbohydrate
        | [] => acc
      | none => acc)
    0

/-- The carb-excess block of a rebalancing pass. -/
def carbStep (totals target : MacroTarget) (foods : List Food) : List Food :=
  if target.carbs * (1 + 1 / 20) < totals.carbs then
    let excessCarb := totals.carbs - target.carbs * (1 + 1 / 20)
    let starchyIndexes := findStarchyCarbIndexes foods
    if starchyIndexes.isEmpty then foods
    else
      let starchCarbs := starchCarbSum foods starchyIndexes
      if 0 < starchCarbs then
        let reductionFrac := min (7 / 20) (excessCarb / starchCarbs)
        starchyIndexes.foldl (fun fds i => scaleAt fds i (1 - reductionFrac)) foods
      else foods
  else foods

/-- One pass of the rebalancing loop: aggregate once, then run the fat
block and the carb block on the running food list. -/
def rebalancePass (foods : List Food) (target : MacroTarget) : List Food :=
  let totals := calculateMealMacros foods
  carbStep totals target (fatStep totals target foods)

/-- `rebalanceMealFoods`: exactly two passes. -/
def rebalanceMealFoods (foods : List Food) (target : MacroTarget) : List Food :=
  rebalancePass (rebalancePass foods target) target

/-! ## Concurrent Food Resolver (sequential denotation)

`batchFetchFoods` forks one unit per unique name, bounded by a
10-slot semaphore, and joins before returning; each unit performs one
`SearchFood` call and stores, under a mutex, the first returned food (or
an absence marker on error/empty result).  Its observable result — the
final map and the multiset of lookup calls — is the sequential map below;
the scheduling itself is not modelled. -/

/-- One unit of work: `SearchFood` modelled as an oracle returning the
food list (`none` = error), keeping the first food if any. -/
def fetchOne (lookup : String → Option (List Food)) (name : String) : Option Food :=
  match lookup name with
  | none => none
  | some foods => foods.head?

/-- The result map of `batchFetchFoods`, as an association list over the
unique food names. -/
def batchFetchFoods (lookup : String → Option (List Food))
    (uniqueFoods : List String) : List (String × Option Food) :=
  uniqueFoods.map (fun name => (name, fetchOne lookup name))

/-- The `uniqueFoods` set built by `swapFoodItems`: every food name of
every meal, deduplicated (Go map keys). -/
def collectUniqueFoods (mealFoodNames : List (List String)) : List String :=
  mealFoodNames.flatten.dedup

/-! ## Sample data used by witnesses and counterexamples -/

/-- A fully-populated gram serving (100 g of a nut butter). -/
def pbServing : Serving where
  servingID := "s1"
  servingDescription := "100 g"
  measurementDescription := "g"
  metricServingAmount := "100"
  metricServingUnit := "g"
  numberOfUnits := "1"
  calories := "180"
  protein := "8"
  carbohydrate := "10"
  fat := "10"
  sugar := "1"
  fiber := "2"
  saturatedFat := "2"
  monounsaturatedFat := "4"
  polyunsaturatedFat := "3"
  cholesterol := "0"
  sodium := "5"
  potassium := "200"
  calcium := "20"
  iron := "1"
  vitaminA := "0"
  vitaminB := "0"
  vitaminC := "0"
  vitaminD := "0"

/-- A whole-food-fat food with a single serving. -/
def pbFood : Food where
  foodID := "f1"
  foodName := "Peanut Butter"
  foodType := "Generic"
  brandName := ""
  servings := [pbServing]

/-- A serving with every field empty. -/
def blankServing : Serving where
  servingID := ""
  servingDescription := ""
  measurementDescription := ""
  metricServingAmount := ""
  metricServingUnit := ""
  numberOfUnits := ""
  calories := ""
  protein := ""
  carbohydrate := ""
  fat := ""
  sugar := ""
  fiber := ""
  saturatedFat := ""
  monounsaturatedFat := ""
  polyunsaturatedFat := ""
  cholesterol := ""
  sodium := ""
  potassium := ""
  calcium := ""
  iron := ""
  vitaminA := ""
  vitaminB := ""
  vitaminC := ""
  vitaminD := ""

/-- A non-gram (cup) serving with complete identity fields. -/
def cupServing : Serving :=
  { pbServing with
    servingID := "c0"
    measurementDescription := "cup"
    calories := "100" }

/-- A gram serving whose identifier is empty and whose calories differ
from `cupServing`. -/
def gramServing : Serving :=
  { pbServing with
    servingID := ""
    measurementDescription := "g"
    calories := "55" }

/-! ## Claim C4 — Portion Scaler degenerate-data guard -/

/-- Claim C4: for every Serving whose calories field or metric serving
amount field is unparseable or parses to zero,
`adjustServingForTargetCalories` returns the Serving unchanged, for any
target calorie value. -/
theorem adjustServing_degenerate_unchanged (serving : Serving) (targetCalories : ℚ)
    (h : parseFloat? serving.calories = none ∨ parseFloat? serving.calories = some 0 ∨
      parseFloat? serving.metricServingAmount = none ∨
      parseFloat? serving.metricServingAmount = some 0) :
    adjustServingForTargetCalories serving targetCalories = serving := by
  unfold adjustServingForTargetCalories
  rcases h with h | h | h | h
  · rw [h]
  · rw [h]; simp
  · cases hc : parseFloat? serving.calories with
    | none => rfl
    | some c =>
      by_cases hc0 : c = 0
      · simp [hc0]
      · simp [hc0, h]
  · cases hc : parseFloat? serving.calories with
    | none => rfl
    | some c =>
      by_cases hc0 : c = 0
      · simp [hc0]
      · simp [hc0, h]

/-- Witness for C4: a serving with calories "0" is returned unscaled. -/
theorem adjustServing_degenerate_unchanged_witness :
    adjustServingForTargetCalories { pbServing with calories := "0" } 250 =
      { pbServing with calories := "0" } :=
  adjustServing_degenerate_unchanged { pbServing with calories := "0" } 250
    (Or.inr (Or.inl (by decide)))

/-! ## Claim C2 — Serving Selector completeness -/

/-- Every descriptive field and every nutrient field of a serving is
non-empty. -/
def allServingFieldsNonEmpty (s : Serving) : Prop :=
  s.servingID ≠ "" ∧ s.servingDescription ≠ "" ∧ s.measurementDescription ≠ "" ∧
    s.metricServingAmount ≠ "" ∧ s.metricServingUnit ≠ "" ∧ s.numberOfUnits ≠ "" ∧
    s.calories ≠ "" ∧ s.protein ≠ "" ∧ s.carbohydrate ≠ "" ∧ s.fat ≠ "" ∧
    s.sugar ≠ "" ∧ s.fiber ≠ "" ∧ s.saturatedFat ≠ "" ∧ s.monounsaturatedFat ≠ "" ∧
    s.polyunsaturatedFat ≠ "" ∧ s.cholesterol ≠ "" ∧ s.sodium ≠ "" ∧ s.potassium ≠ "" ∧
    s.calcium ≠ "" ∧ s.iron ≠ "" ∧ s.vitaminA ≠ "" ∧ s.vitaminB ≠ "" ∧
    s.vitaminC ≠ "" ∧ s.vitaminD ≠ ""

theorem applyServingDefaults_allNonEmpty (s : Serving) :
    allServingFieldsNonEmpty (applyServingDefaults s) := by
  unfold allServingFieldsNonEmpty applyServingDefaults
  dsimp only
  repeat' apply And.intro
  all_goals split
  all_goals first | decide | assumption

/-- Claim C2: whenever the serving-selection pipeline (gram filtering then
field repair) selects a Serving, that Serving has every descriptive field
and every nutrient field non-empty; when no serving exists (empty input
list) nothing is selected. -/
theorem selectServing_allFieldsNonEmpty (servings : List Serving) (s : Serving)
    (h : selectServing servings = some s) : allServingFieldsNonEmpty s := by
  unfold selectServing at h
  cases hf : filterGramServings servings with
  | nil => rw [hf] at h; exact absurd h (by simp)
  | cons a rest =>
    rw [hf] at h
    simp only [Option.some.injEq] at h
    rw [← h]
    exact applyServingDefaults_allNonEmpty _

/-- Witness for C2: a serving list with no gram serving and all fields
empty still selects a fully-populated serving. -/
theorem selectServing_allFieldsNonEmpty_witness :
    allServingFieldsNonEmpty (ensureServingFields blankServing [blankServing]) :=
  selectServing_allFieldsNonEmpty [blankServing]
    (ensureServingFields blankServing [blankServing]) (by decide)

/-! ## Claim C7 — the wholesale-replacement source list -/

/-- Counterexample to C7: with an original list `[cupServing,
gramServing]`, the selected serving is the gram serving (identifier
empty), yet the repair does not replace it by the first serving of the
original list — the available list at the call site is the gram-filtered
list, so the output keeps the gram serving's calories. -/
theorem ensureServing_replacement_claim_false :
    filterGramServings [cupServing, gramServing] = [gramServing] ∧
    gramServing.servingID = "" ∧
    selectServing [cupServing, gramServing] = some (applyServingDefaults gramServing) ∧
    selectServing [cupServing, gramServing] ≠ some (applyServingDefaults cupServing) := by
  decide

/-- Claim C7 (amended): during repair, a selected serving with an empty
identifier or calories field is replaced wholesale by the first serving of
the available-servings argument regardless of unit — but at the pipeline
call sites that argument is the gram-filtered list, whose first element is
the selected serving itself, so the selection pipeline always yields the
default-repaired first filtered serving. -/
theorem ensureServingFields_replaces_with_available_head (sel a : Serving)
    (rest : List Serving) (h : sel.servingID = "" ∨ sel.calories = "") :
    ensureServingFields sel (a :: rest) = applyServingDefaults a ∧
    ∀ (servings : List Serving) (s : Serving) (t : List Serving),
      filterGramServings servings = s :: t →
      selectServing servings = some (applyServingDefaults s) := by
  constructor
  · unfold ensureServingFields
    rw [if_pos h]
  · intro servings s t hfe
    have h2 : selectServing servings = some (ensureServingFields s (s :: t)) := by
      rw [selectServing, hfe]
    rw [h2]
    have h3 : ensureServingFields s (s :: t) = applyServingDefaults s := by
      unfold ensureServingFields
      by_cases hs : s.servingID = "" ∨ s.calories = ""
      · rw [if_pos hs]
      · rw [if_neg hs]
    rw [h3]

/-- Witness for the amended C7. -/
theorem ensureServingFields_replaces_with_available_head_witness :
    ensureServingFields gramServing (gramServing :: []) = applyServingDefaults gramServing :=
  (ensureServingFields_replaces_with_available_head gramServing gramServing []
    (Or.inl (by decide))).1

/-! ## Claim C8 — equal-split fallback ratio -/

/-- Claim C8: a food whose name has no case-insensitive match in the
portion list gets the default ratio `100 / (meal food count)` (integer
division), and its serving is adjusted to target calories
`meal_target × (100 / count) / 100`. -/
theorem findPortionRatio_default (food : Food) (fwps : List FoodWithPortion) (tc : ℚ)
    (s : Serving) (rest : List Serving) (hne : fwps ≠ [])
    (hnm : ∀ p ∈ fwps, strEqFold food.foodName p.name = false)
    (hs : food.servings = s :: rest) :
    findPortionRatio food.foodName fwps = 100 / (fwps.length : ℤ) ∧
    optimizeFood fwps tc food =
      { food with servings :=
          (adjustServingForTargetCalories s
            (tc * (((100 / (fwps.length : ℤ)) : ℤ) : ℚ) / 100) :: rest) } := by
  have hfind : fwps.find? (fun p => strEqFold food.foodName p.name) = none := by
    rw [List.find?_eq_none]
    intro p hp
    simp [hnm p hp]
  have hratio : findPortionRatio food.foodName fwps = 100 / (fwps.length : ℤ) := by
    unfold findPortionRatio
    rw [hfind]
  refine ⟨hratio, ?_⟩
  unfold optimizeFood
  rw [hs]
  simp only [hratio]

/-- Witness for C8: an unmatched food in a two-entry portion list gets
ratio 50. -/
theorem findPortionRatio_default_witness :
    findPortionRatio pbFood.foodName [⟨"Oatmeal", 60⟩, ⟨"Salmon", 40⟩] =
        100 / (([⟨"Oatmeal", 60⟩, ⟨"Salmon", 40⟩] : List FoodWithPortion).length : ℤ) ∧
      optimizeFood [⟨"Oatmeal", 60⟩, ⟨"Salmon", 40⟩] 300 pbFood =
        { pbFood with servings :=
            (adjustServingForTargetCalories pbServing
              (300 * (((100 / (([⟨"Oatmeal", 60⟩, ⟨"Salmon", 40⟩] : List FoodWithPortion).length : ℤ)) : ℤ) : ℚ) / 100) :: []) } :=
  findPortionRatio_default pbFood [⟨"Oatmeal", 60⟩, ⟨"Salmon", 40⟩] 300 pbServing []
    (by decide) (by decide) rfl

/-! ## Claim C5 — fat-deficit correction behaviour -/

theorem findIdxFrom_some {p : Food → Bool} :
    ∀ (l : List Food) (k i : Nat), findIdxFrom p l k = some i →
      k ≤ i ∧ i - k < l.length ∧
        (∃ f, l.get? (i - k) = some f ∧ p f = true) ∧
        ∀ j, j < i - k → ∀ g, l.get? j = some g → p g = false := by
  intro l
  induction l with
  | nil => intro k i h; simp [findIdxFrom] at h
  | cons f fs ih =>
    intro k i h
    rw [findIdxFrom] at h
    by_cases hp : p f
    · rw [if_pos hp, Option.some.injEq] at h
      subst h
      refine ⟨le_rfl, by simp, ⟨f, by simp, hp⟩, ?_⟩
      intro j hj
      omega
    · rw [if_neg hp] at h
      obtain ⟨hk, hlen, ⟨g, hg, hpg⟩, hlt⟩ := ih (k + 1) i h
      have hik : i - k = (i - (k + 1)) + 1 := by omega
      refine ⟨by omega, by simp; omega, ⟨g, ?_, hpg⟩, ?_⟩
      · rw [hik]; simpa using hg
      · intro j hj g' hg'
        cases j with
        | zero =>
          simp only [List.get?_cons_zero, Option.some.injEq] at hg'
          subst hg'
          exact Bool.eq_false_iff.mpr hp
        | succ j' =>
          simp only [List.get?_cons_succ] at hg'
          exact hlt j' (by omega) g' hg'

theorem findIdxFrom_none {p : Food → Bool} :
    ∀ (l : List Food) (k : Nat), findIdxFrom p l k = none → ∀ f ∈ l, p f = false := by
  intro l
  induction l with
  | nil => intro k h f hf; simp at hf
  | cons g gs ih =>
    intro k h f hf
    rw [findIdxFrom] at h
    by_cases hp : p g
    · rw [if_pos hp] at h; exact absurd h (by simp)
    · rw [if_neg hp] at h
      rcases List.mem_cons.mp hf with rfl | hf'
      · exact Bool.eq_false_iff.mpr hp
      · exact ih (k + 1) h f hf'

/-- Claim C5: in a pass whose pre-pass aggregated fat is below
`target_fat × 0.95`, the correction target is the first food matching a
whole-food-fat keyword, else (when no food matches one) the first food
matching a high-fat-protein keyword; when such a food exists and its first
serving's fat is positive, exactly that food's first serving is scaled by
`1 + min 0.6 ((deficit / fat_per_unit) × 0.8)` where
`deficit = target_fat × 0.95 − aggregated_fat`, and in every other case
the fat correction changes nothing. -/
theorem fatStep_spec (foods : List Food) (target : MacroTarget)
    (h : (calculateMealMacros foods).fats < target.fats * (1 - 1 / 20)) :
    (∀ idx, findBestFatFoodIndex foods = some idx →
      ∃ f, foods.get? idx = some f ∧
        ((isWholeFoodFat f.foodName = true ∧
            ∀ j, j < idx → ∀ g, foods.get? j = some g → isWholeFoodFat g.foodName = false) ∨
          ((∀ g ∈ foods, isWholeFoodFat g.foodName = false) ∧
            isHighFatProtein f.foodName = true ∧
            ∀ j, j < idx → ∀ g, foods.get? j = some g → isHighFatProtein g.foodName = false))) ∧
    (∀ idx f s rest, findBestFatFoodIndex foods = some idx → foods.get? idx = some f →
      f.servings = s :: rest →
      (0 < parseFloatDefault s.fat →
        fatStep (calculateMealMacros foods) target foods =
          foods.set idx { f with servings :=
            (scaleServing s
              (1 + min (3 / 5)
                ((target.fats * (1 - 1 / 20) - (calculateMealMacros foods).fats) /
                  parseFloatDefault s.fat * (4 / 5))) :: rest) }) ∧
      (¬0 < parseFloatDefault s.fat →
        fatStep (calculateMealMacros foods) target foods = foods)) ∧
    (∀ idx f, findBestFatFoodIndex foods = some idx → foods.get? idx = some f →
      f.servings = [] → fatStep (calculateMealMacros foods) target foods = foods) ∧
    (findBestFatFoodIndex foods = none →
      fatStep (calculateMealMacros foods) target foods = foods) := by
  refine ⟨?_, ?_, ?_, ?_⟩
  · intro idx hidx
    unfold findBestFatFoodIndex at hidx
    cases hw : findIdxFrom (fun f => isWholeFoodFat f.foodName) foods 0 with
    | some i =>
      rw [hw, Option.some.injEq] at hidx
      subst hidx
      obtain ⟨-, -, ⟨f, hf, hpf⟩, hlt⟩ := findIdxFrom_some foods 0 i hw
      simp only [Nat.sub_zero] at hf hlt
      exact ⟨f, hf, Or.inl ⟨hpf, fun j hj g hg => hlt j hj g hg⟩⟩
    | none =>
      rw [hw] at hidx
      obtain ⟨-, -, ⟨f, hf, hpf⟩, hlt⟩ := findIdxFrom_some foods 0 idx hidx
      simp only [Nat.sub_zero] at hf hlt
      exact ⟨f, hf,
        Or.inr ⟨findIdxFrom_none foods 0 hw, hpf, fun j hj g hg => hlt j hj g hg⟩⟩
  · intro idx f s rest hidx hget hserv
    constructor
    · intro hfat
      unfold fatStep
      rw [if_pos h]
      simp only [hidx, hget, hserv]
      rw [if_pos hfat]
      unfold scaleAt
      simp only [hget, hserv]
    · intro hfat
      unfold fatStep
      rw [if_pos h]
      simp only [hidx, hget, hserv]
      rw [if_neg hfat]
  · intro idx f hidx hget hserv
    unfold fatStep
    rw [if_pos h]
    simp only [hidx, hget, hserv]
  · intro hidx
    unfold fatStep
    rw [if_pos h]
    simp only [hidx]

/-- The macro target used by the rebalancer examples: high fat goal, zero
carb goal. -/
def fatTarget : MacroTarget := { calories := 500, carbs := 0, fats := 100, proteins := 20 }

/-! Evaluation lemmas for concrete strings and rationals (`Rat` arithmetic
does not reduce in the kernel, so these are established with `norm_num`). -/

theorem parseFloatDefault_ten : parseFloatDefault "10" = 10 := by
  rw [parseFloatDefault, show parseFloat? "10" = some ((10 : ℕ) : ℚ) from rfl]
  norm_num

theorem parseFloatDefault_one : parseFloatDefault "1" = 1 := by
  rw [parseFloatDefault, show parseFloat? "1" = some ((1 : ℕ) : ℚ) from rfl]
  norm_num

theorem parseFloatDefault_hundred : parseFloatDefault "100" = 100 := by
  rw [parseFloatDefault, show parseFloat? "100" = some ((100 : ℕ) : ℚ) from rfl]
  norm_num

theorem parseFloatDefault_sixteen : parseFloatDefault "16.000" = 16 := by
  rw [parseFloatDefault,
    show parseFloat? "16.000" = some (((16 : ℕ) : ℚ) + ((0 : ℕ) : ℚ) / 10 ^ 3) from rfl]
  norm_num

theorem parseFloatDefault_zero3 : parseFloatDefault "0.000" = 0 := by
  rw [parseFloatDefault,
    show parseFloat? "0.000" = some (((0 : ℕ) : ℚ) + ((0 : ℕ) : ℚ) / 10 ^ 3) from rfl]
  norm_num

/-- Evaluate `format3` once the rounding has been computed. -/
theorem format3_eval (q : ℚ) (z : ℤ) (h : round (q * 1000) = z) (s : String)
    (hs : (⟨if z < 0 then
        parseFloat?.signMinus ::
          (natToChars (z.natAbs / 1000) ++ parseUnsigned.dotChar :: pad3 (z.natAbs % 1000))
      else
        natToChars (z.natAbs / 1000) ++
          parseUnsigned.dotChar :: pad3 (z.natAbs % 1000)⟩ : String) = s) :
    format3 q = s := by
  unfold format3
  rw [h]
  exact hs

theorem format3_sixteen : format3 16 = "16.000" :=
  format3_eval 16 16000 (by norm_num [round_eq]) _ rfl

theorem format3_zero : format3 0 = "0.000" :=
  format3_eval 0 0 (by norm_num [round_eq]) _ rfl

theorem calc_pbFood_fats : (calculateMealMacros [pbFood]).fats = 10 := by
  simp only [calculateMealMacros, pbFood, pbServing]
  rw [parseFloatDefault_ten]
  norm_num

theorem calc_pbFood_carbs : (calculateMealMacros [pbFood]).carbs = 10 := by
  simp only [calculateMealMacros, pbFood, pbServing]
  rw [parseFloatDefault_ten]
  norm_num

theorem pbFood_fat_pos : 0 < parseFloatDefault pbServing.fat := by
  rw [show pbServing.fat = "10" from rfl, parseFloatDefault_ten]
  norm_num

theorem pbFood_fat_deficit :
    (calculateMealMacros [pbFood]).fats < fatTarget.fats * (1 - 1 / 20) := by
  rw [calc_pbFood_fats, show fatTarget.fats = 100 from rfl]
  norm_num

/-- Witness for C5: with a single peanut-butter food (10 g fat per
serving) and fat target 100, the pass scales that food's serving. -/
theorem fatStep_spec_witness :
    fatStep (calculateMealMacros [pbFood]) fatTarget [pbFood] =
      [pbFood].set 0 { pbFood with servings :=
        (scaleServing pbServing
          (1 + min (3 / 5)
            ((fatTarget.fats * (1 - 1 / 20) - (calculateMealMacros [pbFood]).fats) /
              parseFloatDefault pbServing.fat * (4 / 5))) :: []) } :=
  (((fatStep_spec [pbFood] fatTarget pbFood_fat_deficit).2.1 0 pbFood pbServing []
    (by decide) (by decide) rfl).1) pbFood_fat_pos

/-! ## Claim C1 — per-pass macro movement

Helper layer: the aggregated fat/carb totals as sums over the food list,
and how one `scaleAt` (or `List.set`) moves them. -/

/-- The contribution of a food's first serving to an aggregated macro,
through a string-field selector. -/
def foodMacro (sel : Serving → String) (f : Food) : ℚ :=
  match f.servings with
  | [] => 0
  | s :: _ => parseFloatDefault (sel s)

theorem calc_fats_eq_sum (l : List Food) :
    (calculateMealMacros l).fats = (l.map (foodMacro (fun s => s.fat))).sum := by
  induction l with
  | nil => rfl
  | cons f fs ih =>
    rw [calculateMealMacros]
    cases hs : f.servings with
    | nil => simpa [foodMacro, hs] using ih
    | cons s rest => simp [foodMacro, hs, ih]

theorem calc_carbs_eq_sum (l : List Food) :
    (calculateMealMacros l).carbs = (l.map (foodMacro (fun s => s.carbohydrate))).sum := by
  induction l with
  | nil => rfl
  | cons f fs ih =>
    rw [calculateMealMacros]
    cases hs : f.servings with
    | nil => simpa [foodMacro, hs] using ih
    | cons s rest => simp [foodMacro, hs, ih]

theorem sum_map_set (F : Food → ℚ) :
    ∀ (l : List Food) (i : Nat) (f g : Food), l.get? i = some g →
      ((l.set i f).map F).sum = (l.map F).sum - F g + F f := by
  intro l
  induction l with
  | nil => intro i f g h; simp at h
  | cons a as ih =>
    intro i f g h
    cases i with
    | zero =>
      simp only [List.get?_cons_zero, Option.some.injEq] at h
      subst h
      simp only [List.set_cons_zero, List.map_cons, List.sum_cons]
      ring
    | succ j =>
      simp only [List.get?_cons_succ] at h
      simp only [List.set_cons_succ, List.map_cons, List.sum_cons]
      rw [ih j f g h]
      ring

theorem scaleServing_fat_of_pos {fac : ℚ} (h : 0 < fac) (s : Serving) :
    (scaleServing s fac).fat = format3 (parseFloatDefault s.fat * fac) := by
  simp only [scaleServing, if_neg (not_le.mpr h)]

theorem scaleServing_carb_of_pos {fac : ℚ} (h : 0 < fac) (s : Serving) :
    (scaleServing s fac).carbohydrate = format3 (parseFloatDefault s.carbohydrate * fac) := by
  simp only [scaleServing, if_neg (not_le.mpr h)]

/-- The aggregated macro (through selector `sel`, with `sel` scaled like
carbs/fat are) at index `i`, zero when out of range or servingless. -/
def macroAt (sel : Serving → String) (fds : List Food) (i : Nat) : ℚ :=
  match fds.get? i with
  | some f => foodMacro sel f
  | none => 0

theorem round3_zero : round3 0 = 0 := by
  simp [round3]

theorem scaleAt_eq_of_get_none {fds : List Food} {i : Nat} (fac : ℚ)
    (hget : fds.get? i = none) : scaleAt fds i fac = fds := by
  unfold scaleAt
  simp only [hget]

theorem scaleAt_eq_of_servings_nil {fds : List Food} {i : Nat} {f : Food} (fac : ℚ)
    (hget : fds.get? i = some f) (hs : f.servings = []) : scaleAt fds i fac = fds := by
  unfold scaleAt
  simp only [hget, hs]

theorem scaleAt_eq_set {fds : List Food} {i : Nat} {f : Food} {s : Serving}
    {rest : List Serving} (fac : ℚ) (hget : fds.get? i = some f)
    (hs : f.servings = s :: rest) :
    scaleAt fds i fac = fds.set i { f with servings := scaleServing s fac :: rest } := by
  unfold scaleAt
  simp only [hget, hs]

theorem scaleAt_carbs {fac : ℚ} (hfac : 0 < fac) (fds : List Food) (i : Nat) :
    (calculateMealMacros (scaleAt fds i fac)).carbs =
      (calculateMealMacros fds).carbs +
        (round3 (macroAt (fun s => s.carbohydrate) fds i * fac) -
          macroAt (fun s => s.carbohydrate) fds i) := by
  cases hget : fds.get? i with
  | none =>
    rw [scaleAt_eq_of_get_none fac hget]
    simp only [macroAt, hget]
    rw [zero_mul, round3_zero]
    ring
  | some f =>
    cases hs : f.servings with
    | nil =>
      rw [scaleAt_eq_of_servings_nil fac hget hs]
      simp only [macroAt, hget, foodMacro, hs]
      rw [zero_mul, round3_zero]
      ring
    | cons s rest =>
      rw [scaleAt_eq_set fac hget hs, calc_carbs_eq_sum, calc_carbs_eq_sum,
        sum_map_set (foodMacro (fun t => t.carbohydrate)) fds i _ f hget]
      simp only [macroAt, hget, foodMacro, hs, scaleServing_carb_of_pos hfac,
        parseFloatDefault_format3]
      ring

theorem scaleAt_macroAt_ne (sel : Serving → String) (fds : List Food) (i j : Nat)
    (fac : ℚ) (hne : i ≠ j) :
    macroAt sel (scaleAt fds i fac) j = macroAt sel fds j := by
  cases hget : fds.get? i with
  | none => rw [scaleAt_eq_of_get_none fac hget]
  | some f =>
    cases hs : f.servings with
    | nil => rw [scaleAt_eq_of_servings_nil fac hget hs]
    | cons s rest =>
      rw [scaleAt_eq_set fac hget hs]
      simp only [macroAt, List.get?_set_ne _ _ hne]

theorem scaleAt_fats {fac : ℚ} (hfac : 0 < fac) (fds : List Food) (i : Nat) :
    (calculateMealMacros (scaleAt fds i fac)).fats =
      (calculateMealMacros fds).fats +
        (round3 (macroAt (fun s => s.fat) fds i * fac) -
          macroAt (fun s => s.fat) fds i) := by
  cases hget : fds.get? i with
  | none =>
    rw [scaleAt_eq_of_get_none fac hget]
    simp only [macroAt, hget]
    rw [zero_mul, round3_zero]
    ring
  | some f =>
    cases hs : f.servings with
    | nil =>
      rw [scaleAt_eq_of_servings_nil fac hget hs]
      simp only [macroAt, hget, foodMacro, hs]
      rw [zero_mul, round3_zero]
      ring
    | cons s rest =>
      rw [scaleAt_eq_set fac hget hs, calc_fats_eq_sum, calc_fats_eq_sum,
        sum_map_set (foodMacro (fun t => t.fat)) fds i _ f hget]
      simp only [macroAt, hget, foodMacro, hs, scaleServing_fat_of_pos hfac,
        parseFloatDefault_format3]
      ring

/-! Branch equations for `fatStep` and `carbStep`. -/

theorem fatStep_eq_of_none {totals target : MacroTarget} {foods : List Food}
    (h : totals.fats < target.fats * (1 - 1 / 20))
    (hidx : findBestFatFoodIndex foods = none) :
    fatStep totals target foods = foods := by
  unfold fatStep
  rw [if_pos h]
  simp only [hidx]

theorem fatStep_eq_of_get_none {totals target : MacroTarget} {foods : List Food} {idx : Nat}
    (h : totals.fats < target.fats * (1 - 1 / 20))
    (hidx : findBestFatFoodIndex foods = some idx) (hget : foods.get? idx = none) :
    fatStep totals target foods = foods := by
  unfold fatStep
  rw [if_pos h]
  simp only [hidx, hget]

theorem fatStep_eq_of_servings_nil {totals target : MacroTarget} {foods : List Food}
    {idx : Nat} {f : Food} (h : totals.fats < target.fats * (1 - 1 / 20))
    (hidx : findBestFatFoodIndex foods = some idx) (hget : foods.get? idx = some f)
    (hs : f.servings = []) : fatStep totals target foods = foods := by
  unfold fatStep
  rw [if_pos h]
  simp only [hidx, hget, hs]

theorem fatStep_eq_of_fat_nonpos {totals target : MacroTarget} {foods : List Food}
    {idx : Nat} {f : Food} {s : Serving} {rest : List Serving}
    (h : totals.fats < target.fats * (1 - 1 / 20))
    (hidx : findBestFatFoodIndex foods = some idx) (hget : foods.get? idx = some f)
    (hs : f.servings = s :: rest) (hfat : ¬0 < parseFloatDefault s.fat) :
    fatStep totals target foods = foods := by
  unfold fatStep
  rw [if_pos h]
  simp only [hidx, hget, hs]
  rw [if_neg hfat]

theorem fatStep_eq_scaleAt {totals target : MacroTarget} {foods : List Food}
    {idx : Nat} {f : Food} {s : Serving} {rest : List Serving}
    (h : totals.fats < target.fats * (1 - 1 / 20))
    (hidx : findBestFatFoodIndex foods = some idx) (hget : foods.get? idx = some f)
    (hs : f.servings = s :: rest) (hfat : 0 < parseFloatDefault s.fat) :
    fatStep totals target foods =
      scaleAt foods idx
        (1 + min (3 / 5)
          ((target.fats * (1 - 1 / 20) - totals.fats) / parseFloatDefault s.fat * (4 / 5))) := by
  unfold fatStep
  rw [if_pos h]
  simp only [hidx, hget, hs]
  rw [if_pos hfat]

/-- Arithmetic core of the fat-correction bound. -/
theorem fat_scale_arith (F B x : ℚ) (hFB : F < B) (hx : 0 < x) :
    F - 1 / 2000 ≤ F + (round3 (x * (1 + min (3 / 5) ((B - F) / x * (4 / 5)))) - x) ∧
      F + (round3 (x * (1 + min (3 / 5) ((B - F) / x * (4 / 5)))) - x) ≤ B + 1 / 2000 := by
  set mn := min ((3 : ℚ) / 5) ((B - F) / x * (4 / 5)) with hmn
  have hneed : (0 : ℚ) < B - F := by linarith
  have hmpos : 0 < mn := lt_min (by norm_num) (mul_pos (div_pos hneed hx) (by norm_num))
  have hr := abs_round3_sub (x * (1 + mn))
  rw [abs_le] at hr
  have hy : x * (1 + mn) = x + x * mn := by ring
  have hxmn0 : 0 ≤ x * mn := by positivity
  have hxmn : x * mn ≤ (B - F) * (4 / 5) := by
    have h1 : mn ≤ (B - F) / x * (4 / 5) := min_le_right _ _
    have h2 : x * mn ≤ x * ((B - F) / x * (4 / 5)) :=
      mul_le_mul_of_nonneg_left h1 (le_of_lt hx)
    have h3 : x * ((B - F) / x * (4 / 5)) = (B - F) * (4 / 5) := by
      field_simp
      ring
    linarith
  constructor
  · linarith [hr.1, hy, hxmn0]
  · linarith [hr.2, hy, hxmn]

/-- The fat-deficit block can lower aggregated fat by at most one rounding
unit and never pushes it past `0.95 × target` by more than one rounding
unit. -/
theorem fatStep_fats_bounds (foods : List Food) (target : MacroTarget)
    (h : (calculateMealMacros foods).fats < target.fats * (1 - 1 / 20)) :
    (calculateMealMacros foods).fats - 1 / 2000 ≤
        (calculateMealMacros
          (fatStep (calculateMealMacros foods) target foods)).fats ∧
      (calculateMealMacros
          (fatStep (calculateMealMacros foods) target foods)).fats ≤
        target.fats * (1 - 1 / 20) + 1 / 2000 := by
  cases hidx : findBestFatFoodIndex foods with
  | none =>
    rw [fatStep_eq_of_none h hidx]
    constructor <;> linarith
  | some idx =>
    cases hget : foods.get? idx with
    | none =>
      rw [fatStep_eq_of_get_none h hidx hget]
      constructor <;> linarith
    | some f =>
      cases hs : f.servings with
      | nil =>
        rw [fatStep_eq_of_servings_nil h hidx hget hs]
        constructor <;> linarith
      | cons s rest =>
        by_cases hfat : 0 < parseFloatDefault s.fat
        · have hfacpos : (0 : ℚ) < 1 +
              min ((3 : ℚ) / 5)
                ((target.fats * (1 - 1 / 20) - (calculateMealMacros foods).fats) /
                  parseFloatDefault s.fat * (4 / 5)) := by
            have hneed : (0 : ℚ) <
                target.fats * (1 - 1 / 20) - (calculateMealMacros foods).fats := by
              linarith
            have := lt_min (show (0 : ℚ) < 3 / 5 by norm_num)
              (mul_pos (div_pos hneed hfat) (show (0 : ℚ) < 4 / 5 by norm_num))
            linarith
          have hma : macroAt (fun t => t.fat) foods idx = parseFloatDefault s.fat := by
            simp only [macroAt, hget, foodMacro, hs]
          rw [fatStep_eq_scaleAt h hidx hget hs hfat, scaleAt_fats hfacpos foods idx, hma]
          exact fat_scale_arith (calculateMealMacros foods).fats
            (target.fats * (1 - 1 / 20)) (parseFloatDefault s.fat) h hfat
        · rw [fatStep_eq_of_fat_nonpos h hidx hget hs hfat]
          constructor <;> linarith

theorem carbStep_eq_of_no_excess {totals target : MacroTarget} {fds : List Food}
    (h : ¬target.carbs * (1 + 1 / 20) < totals.carbs) :
    carbStep totals target fds = fds := by
  unfold carbStep
  rw [if_neg h]

theorem carbStep_eq_of_empty {totals target : MacroTarget} {fds : List Food}
    (h : target.carbs * (1 + 1 / 20) < totals.carbs)
    (he : (findStarchyCarbIndexes fds).isEmpty = true) :
    carbStep totals target fds = fds := by
  unfold carbStep
  rw [if_pos h]
  simp only [he, if_true]

theorem carbStep_eq_of_S_nonpos {totals target : MacroTarget} {fds : List Food}
    (h : target.carbs * (1 + 1 / 20) < totals.carbs)
    (he : (findStarchyCarbIndexes fds).isEmpty = false)
    (hS : ¬0 < starchCarbSum fds (findStarchyCarbIndexes fds)) :
    carbStep totals target fds = fds := by
  unfold carbStep
  rw [if_pos h]
  simp only [he, Bool.false_eq_true, if_false]
  rw [if_neg hS]

theorem carbStep_eq_foldl {totals target : MacroTarget} {fds : List Food}
    (h : target.carbs * (1 + 1 / 20) < totals.carbs)
    (he : (findStarchyCarbIndexes fds).isEmpty = false)
    (hS : 0 < starchCarbSum fds (findStarchyCarbIndexes fds)) :
    carbStep totals target fds =
      (findStarchyCarbIndexes fds).foldl
        (fun l i => scaleAt l i
          (1 - min (7 / 20) ((totals.carbs - target.carbs * (1 + 1 / 20)) /
            starchCarbSum fds (findStarchyCarbIndexes fds)))) fds := by
  unfold carbStep
  rw [if_pos h]
  simp only [he, Bool.false_eq_true, if_false]
  rw [if_pos hS]

theorem starchyIdxAux_ge :
    ∀ (fds : List Food) (k j : Nat), j ∈ starchyIdxAux fds k → k ≤ j := by
  intro fds
  induction fds with
  | nil => intro k j h; simp [starchyIdxAux] at h
  | cons f fs ih =>
    intro k j h
    rw [starchyIdxAux] at h
    by_cases hp : isStarchyCarb f.foodName = true
    · rw [if_pos hp] at h
      rcases List.mem_cons.mp h with rfl | h'
      · exact le_rfl
      · exact le_trans (Nat.le_succ k) (ih (k + 1) j h')
    · rw [if_neg hp] at h
      exact le_trans (Nat.le_succ k) (ih (k + 1) j h)

theorem starchyIdxAux_nodup : ∀ (fds : List Food) (k : Nat), (starchyIdxAux fds k).Nodup := by
  intro fds
  induction fds with
  | nil => intro k; simp [starchyIdxAux]
  | cons f fs ih =>
    intro k
    rw [starchyIdxAux]
    by_cases hp : isStarchyCarb f.foodName = true
    · rw [if_pos hp]
      refine List.nodup_cons.mpr ⟨?_, ih (k + 1)⟩
      intro hmem
      have := starchyIdxAux_ge fs (k + 1) k hmem
      omega
    · rw [if_neg hp]
      exact ih (k + 1)

theorem findStarchyCarbIndexes_nodup (fds : List Food) :
    (findStarchyCarbIndexes fds).Nodup :=
  starchyIdxAux_nodup fds 0

theorem starchCarbSum_eq (fds : List Food) (idxs : List Nat) :
    starchCarbSum fds idxs =
      (idxs.map (macroAt (fun s => s.carbohydrate) fds)).sum := by
  have haux : ∀ (l : List Nat) (acc : ℚ),
      l.foldl
        (fun acc i =>
          match fds.get? i with
          | some f =>
            match f.servings with
            | s :: _ => acc + parseFloatDefault s.carbohydrate
            | [] => acc
          | none => acc) acc =
        acc + (l.map (macroAt (fun s => s.carbohydrate) fds)).sum := by
    intro l
    induction l with
    | nil => intro acc; simp
    | cons i rest ih =>
      intro acc
      rw [List.foldl_cons, ih]
      have hstep :
          (match fds.get? i with
            | some f =>
              match f.servings with
              | s :: _ => acc + parseFloatDefault s.carbohydrate
              | [] => acc
            | none => acc) = acc + macroAt (fun s => s.carbohydrate) fds i := by
        cases hget : fds.get? i with
        | none => simp only [macroAt, hget]; ring
        | some f =>
          cases hs : f.servings with
          | nil => simp only [macroAt, hget, foodMacro, hs]; ring
          | cons s r => simp only [macroAt, hget, foodMacro, hs]
      rw [hstep]
      simp only [List.map_cons, List.sum_cons]
      ring
  have h0 := haux idxs 0
  unfold starchCarbSum
  rw [h0, zero_add]

theorem foldl_scaleAt_carbs {fac : ℚ} (hfac : 0 < fac) :
    ∀ (idxs : List Nat) (fds : List Food), idxs.Nodup →
      (calculateMealMacros (idxs.foldl (fun l i => scaleAt l i fac) fds)).carbs =
        (calculateMealMacros fds).carbs +
          ((idxs.map (fun i =>
            round3 (macroAt (fun s => s.carbohydrate) fds i * fac) -
              macroAt (fun s => s.carbohydrate) fds i)).sum) := by
  intro idxs
  induction idxs with
  | nil => intro fds _; simp
  | cons i rest ih =>
    intro fds hnd
    rw [List.foldl_cons, ih (scaleAt fds i fac) hnd.of_cons]
    rw [scaleAt_carbs hfac fds i]
    have hcongr : ∀ j ∈ rest,
        (fun j => round3 (macroAt (fun s => s.carbohydrate) (scaleAt fds i fac) j * fac) -
          macroAt (fun s => s.carbohydrate) (scaleAt fds i fac) j) j =
        (fun j => round3 (macroAt (fun s => s.carbohydrate) fds j * fac) -
          macroAt (fun s => s.carbohydrate) fds j) j := by
      intro j hj
      have hne : i ≠ j := fun he => (List.nodup_cons.mp hnd).1 (he ▸ hj)
      simp only [scaleAt_macroAt_ne _ fds i j fac hne]
    rw [List.map_congr_left hcongr]
    simp only [List.map_cons, List.sum_cons]
    ring

theorem sum_scale_terms_bounds (c : Nat → ℚ) (fac : ℚ) :
    ∀ idxs : List Nat,
      ((idxs.map (fun i => round3 (c i * fac) - c i)).sum ≤
        (idxs.length : ℚ) * (1 / 2000) - (1 - fac) * ((idxs.map c).sum)) ∧
      (-((idxs.length : ℚ) * (1 / 2000)) - (1 - fac) * ((idxs.map c).sum) ≤
        (idxs.map (fun i => round3 (c i * fac) - c i)).sum) := by
  intro idxs
  induction idxs with
  | nil => simp
  | cons i rest ih =>
    have hr := abs_round3_sub (c i * fac)
    rw [abs_le] at hr
    have hterm : (1 - fac) * c i = c i - c i * fac := by ring
    simp only [List.map_cons, List.sum_cons, List.length_cons]
    push_cast
    have hexp : (1 - fac) * (c i + (rest.map c).sum) =
        (1 - fac) * c i + (1 - fac) * (rest.map c).sum := by ring
    constructor
    · rw [hexp]
      linarith [ih.1, hr.2, hterm]
    · rw [hexp]
      linarith [ih.2, hr.1, hterm]

/-- The carb-excess block moves aggregated carbs down by at most the
stale excess plus per-food rounding, and up by at most per-food
rounding. -/
theorem carbStep_carbs_bounds (totals target : MacroTarget) (fds : List Food)
    (hg : target.carbs * (1 + 1 / 20) < totals.carbs) :
    (calculateMealMacros fds).carbs - (totals.carbs - target.carbs * (1 + 1 / 20)) -
        ((findStarchyCarbIndexes fds).length : ℚ) * (1 / 2000) ≤
      (calculateMealMacros (carbStep totals target fds)).carbs ∧
    (calculateMealMacros (carbStep totals target fds)).carbs ≤
      (calculateMealMacros fds).carbs +
        ((findStarchyCarbIndexes fds).length : ℚ) * (1 / 2000) := by
  have hexcpos : 0 < totals.carbs - target.carbs * (1 + 1 / 20) := by linarith
  have hlen0 : (0 : ℚ) ≤ ((findStarchyCarbIndexes fds).length : ℚ) * (1 / 2000) := by
    positivity
  cases hemp : (findStarchyCarbIndexes fds).isEmpty with
  | true =>
    rw [carbStep_eq_of_empty hg hemp]
    constructor <;> linarith
  | false =>
    by_cases hS : 0 < starchCarbSum fds (findStarchyCarbIndexes fds)
    · have hmin1 : min ((7 : ℚ) / 20)
          ((totals.carbs - target.carbs * (1 + 1 / 20)) /
            starchCarbSum fds (findStarchyCarbIndexes fds)) ≤ 7 / 20 :=
        min_le_left _ _
      have hminpos : 0 < min ((7 : ℚ) / 20)
          ((totals.carbs - target.carbs * (1 + 1 / 20)) /
            starchCarbSum fds (findStarchyCarbIndexes fds)) :=
        lt_min (by norm_num) (div_pos hexcpos hS)
      have hfacpos : (0 : ℚ) < 1 - min ((7 : ℚ) / 20)
          ((totals.carbs - target.carbs * (1 + 1 / 20)) /
            starchCarbSum fds (findStarchyCarbIndexes fds)) := by
        linarith
      rw [carbStep_eq_foldl hg hemp hS,
        foldl_scaleAt_carbs hfacpos (findStarchyCarbIndexes fds) fds
          (findStarchyCarbIndexes_nodup fds)]
      obtain ⟨hup, hlo⟩ := sum_scale_terms_bounds
        (macroAt (fun s => s.carbohydrate) fds)
        (1 - min ((7 : ℚ) / 20)
          ((totals.carbs - target.carbs * (1 + 1 / 20)) /
            starchCarbSum fds (findStarchyCarbIndexes fds)))
        (findStarchyCarbIndexes fds)
      rw [← starchCarbSum_eq fds (findStarchyCarbIndexes fds)] at hup hlo
      have hfaceq : (1 : ℚ) - (1 - min ((7 : ℚ) / 20)
          ((totals.carbs - target.carbs * (1 + 1 / 20)) /
            starchCarbSum fds (findStarchyCarbIndexes fds))) =
          min ((7 : ℚ) / 20)
            ((totals.carbs - target.carbs * (1 + 1 / 20)) /
              starchCarbSum fds (findStarchyCarbIndexes fds)) := by ring
      rw [hfaceq] at hup hlo
      have hminS_le : min ((7 : ℚ) / 20)
            ((totals.carbs - target.carbs * (1 + 1 / 20)) /
              starchCarbSum fds (findStarchyCarbIndexes fds)) *
            starchCarbSum fds (findStarchyCarbIndexes fds) ≤
          totals.carbs - target.carbs * (1 + 1 / 20) := by
        have h1 : min ((7 : ℚ) / 20)
            ((totals.carbs - target.carbs * (1 + 1 / 20)) /
              starchCarbSum fds (findStarchyCarbIndexes fds)) ≤
            (totals.carbs - target.carbs * (1 + 1 / 20)) /
              starchCarbSum fds (findStarchyCarbIndexes fds) := min_le_right _ _
        have h2 := mul_le_mul_of_nonneg_right h1 (le_of_lt hS)
        have h3 : (totals.carbs - target.carbs * (1 + 1 / 20)) /
              starchCarbSum fds (findStarchyCarbIndexes fds) *
              starchCarbSum fds (findStarchyCarbIndexes fds) =
            totals.carbs - target.carbs * (1 + 1 / 20) := by
          field_simp
          ring
        linarith
      have hminS_nonneg : 0 ≤ min ((7 : ℚ) / 20)
            ((totals.carbs - target.carbs * (1 + 1 / 20)) /
              starchCarbSum fds (findStarchyCarbIndexes fds)) *
            starchCarbSum fds (findStarchyCarbIndexes fds) :=
        mul_nonneg (le_of_lt hminpos) (le_of_lt hS)
      constructor
      · linarith [hlo]
      · linarith [hup]
    · rw [carbStep_eq_of_S_nonpos hg hemp hS]
      constructor <;> linarith

/-- Counterexample to C1 as stated: the first rebalancing pass strictly
increases the absolute deviation of aggregated carbs from the carb target
(from 10 to 16 against a zero carb target), because the fat-deficit
correction scales the whole peanut-butter serving — carbs included — by
the fat factor 1.6 while no starchy food exists to trim. -/
theorem rebalance_pass_deviation_claim_false :
    |(calculateMealMacros (rebalancePass [pbFood] fatTarget)).carbs - fatTarget.carbs| >
      |(calculateMealMacros [pbFood]).carbs - fatTarget.carbs| := by
  have hfindidx : findBestFatFoodIndex [pbFood] = some 0 := by decide
  have hget : [pbFood].get? 0 = some pbFood := by decide
  have hserv : pbFood.servings = pbServing :: [] := rfl
  have h1 : fatStep (calculateMealMacros [pbFood]) fatTarget [pbFood] =
      scaleAt [pbFood] 0
        (1 + min (3 / 5)
          ((fatTarget.fats * (1 - 1 / 20) - (calculateMealMacros [pbFood]).fats) /
            parseFloatDefault pbServing.fat * (4 / 5))) :=
    fatStep_eq_scaleAt pbFood_fat_deficit hfindidx hget hserv pbFood_fat_pos
  have hfacval : (1 : ℚ) + min (3 / 5)
      ((fatTarget.fats * (1 - 1 / 20) - (calculateMealMacros [pbFood]).fats) /
        parseFloatDefault pbServing.fat * (4 / 5)) = 8 / 5 := by
    rw [calc_pbFood_fats, show fatTarget.fats = (100 : ℚ) from rfl,
      show pbServing.fat = "10" from rfl, parseFloatDefault_ten,
      show ((100 : ℚ) * (1 - 1 / 20) - 10) / 10 * (4 / 5) = 34 / 5 by norm_num,
      min_eq_left (by norm_num : (3 : ℚ) / 5 ≤ 34 / 5)]
    norm_num
  rw [hfacval] at h1
  have h2 : scaleAt [pbFood] 0 (8 / 5) =
      [{ pbFood with servings := scaleServing pbServing (8 / 5) :: [] }] := by
    rw [scaleAt_eq_set (8 / 5) hget hserv]
    rfl
  have hsc : (scaleServing pbServing (8 / 5)).carbohydrate = "16.000" := by
    rw [scaleServing_carb_of_pos (by norm_num : (0 : ℚ) < 8 / 5),
      show pbServing.carbohydrate = "10" from rfl, parseFloatDefault_ten,
      show (10 : ℚ) * (8 / 5) = 16 by norm_num]
    exact format3_sixteen
  have hcalc1 : (calculateMealMacros
      [{ pbFood with servings := scaleServing pbServing (8 / 5) :: [] }]).carbs = 16 := by
    simp only [calculateMealMacros]
    rw [hsc, parseFloatDefault_sixteen]
    norm_num
  have hg : fatTarget.carbs * (1 + 1 / 20) < (calculateMealMacros [pbFood]).carbs := by
    rw [calc_pbFood_carbs, show fatTarget.carbs = (0 : ℚ) from rfl]
    norm_num
  have hemp : (findStarchyCarbIndexes
      [{ pbFood with servings := scaleServing pbServing (8 / 5) :: [] }]).isEmpty = true := by
    decide
  have hpass : rebalancePass [pbFood] fatTarget =
      carbStep (calculateMealMacros [pbFood]) fatTarget
        (fatStep (calculateMealMacros [pbFood]) fatTarget [pbFood]) := rfl
  rw [hpass, h1, h2, carbStep_eq_of_empty hg hemp, hcalc1, calc_pbFood_carbs,
    show fatTarget.carbs = (0 : ℚ) from rfl, sub_zero, sub_zero,
    abs_of_nonneg (by norm_num : (0 : ℚ) ≤ 16), abs_of_nonneg (by norm_num : (0 : ℚ) ≤ 10)]
  norm_num

/-- Claim C1 (amended): within one pass, the fat-deficit block changes the
aggregated fat only within `[pre-pass fat − 0.0005, 0.95 × target fat +
0.0005]` (so it never worsens the fat deviation beyond one 3-decimal
rounding unit), and the carb-excess block changes the aggregated carbs of
the list it runs on only within `[carbs − (pre-pass excess) − n × 0.0005,
carbs + n × 0.0005]` where `n` is the number of starchy foods (so it never
worsens the carb deviation beyond `n` rounding units); the pass does not,
however, bound the effect of one block on the other macro, and the
original joint no-increase claim is false. -/
theorem rebalance_pass_step_bounds (foods : List Food) (target : MacroTarget) :
    ((calculateMealMacros foods).fats < target.fats * (1 - 1 / 20) →
      (calculateMealMacros foods).fats - 1 / 2000 ≤
          (calculateMealMacros (fatStep (calculateMealMacros foods) target foods)).fats ∧
        (calculateMealMacros (fatStep (calculateMealMacros foods) target foods)).fats ≤
          target.fats * (1 - 1 / 20) + 1 / 2000) ∧
    (∀ fds, target.carbs * (1 + 1 / 20) < (calculateMealMacros foods).carbs →
      (calculateMealMacros fds).carbs -
          ((calculateMealMacros foods).carbs - target.carbs * (1 + 1 / 20)) -
          ((findStarchyCarbIndexes fds).length : ℚ) * (1 / 2000) ≤
        (calculateMealMacros (carbStep (calculateMealMacros foods) target fds)).carbs ∧
      (calculateMealMacros (carbStep (calculateMealMacros foods) target fds)).carbs ≤
        (calculateMealMacros fds).carbs +
          ((findStarchyCarbIndexes fds).length : ℚ) * (1 / 2000)) :=
  ⟨fun h => fatStep_fats_bounds foods target h,
   fun fds h => carbStep_carbs_bounds (calculateMealMacros foods) target fds h⟩

/-- The target used by the C1 witness: both a fat deficit and a carb
excess are active. -/
def mixTarget : MacroTarget := { calories := 500, carbs := 1, fats := 100, proteins := 20 }

/-- Witness for the amended C1, at a meal with an active fat deficit and
carb excess. -/
theorem rebalance_pass_step_bounds_witness :
    ((calculateMealMacros [pbFood]).fats - 1 / 2000 ≤
        (calculateMealMacros (fatStep (calculateMealMacros [pbFood]) mixTarget [pbFood])).fats ∧
      (calculateMealMacros (fatStep (calculateMealMacros [pbFood]) mixTarget [pbFood])).fats ≤
        mixTarget.fats * (1 - 1 / 20) + 1 / 2000) ∧
    ((calculateMealMacros [pbFood]).carbs -
        ((calculateMealMacros [pbFood]).carbs - mixTarget.carbs * (1 + 1 / 20)) -
        ((findStarchyCarbIndexes [pbFood]).length : ℚ) * (1 / 2000) ≤
      (calculateMealMacros (carbStep (calculateMealMacros [pbFood]) mixTarget [pbFood])).carbs ∧
      (calculateMealMacros (carbStep (calculateMealMacros [pbFood]) mixTarget [pbFood])).carbs ≤
        (calculateMealMacros [pbFood]).carbs +
          ((findStarchyCarbIndexes [pbFood]).length : ℚ) * (1 / 2000)) :=
  ⟨(rebalance_pass_step_bounds [pbFood] mixTarget).1
      (by rw [calc_pbFood_fats, show mixTarget.fats = (100 : ℚ) from rfl]; norm_num),
   (rebalance_pass_step_bounds [pbFood] mixTarget).2 [pbFood]
      (by rw [calc_pbFood_carbs, show mixTarget.carbs = (1 : ℚ) from rfl]; norm_num)⟩

/-! ## Claim C6 — scaling reversibility -/

/-- The gram amount together with the 18 nutrient fields: everything
`scaleServing` rescales. -/
def servingNumericFields : List (Serving → String) :=
  [fun s => s.metricServingAmount, fun s => s.calories, fun s => s.protein,
   fun s => s.carbohydrate, fun s => s.fat, fun s => s.sugar, fun s => s.fiber,
   fun s => s.saturatedFat, fun s => s.monounsaturatedFat, fun s => s.polyunsaturatedFat,
   fun s => s.cholesterol, fun s => s.sodium, fun s => s.potassium, fun s => s.calcium,
   fun s => s.iron, fun s => s.vitaminA, fun s => s.vitaminB, fun s => s.vitaminC,
   fun s => s.vitaminD]

theorem roundtrip_core (x m : ℚ) (hm : 0 < m) :
    |round3 (round3 (x * m) * m⁻¹) - x| ≤ 1 / 2000 * (1 + m⁻¹) := by
  have h1 := abs_round3_sub (x * m)
  have h2 := abs_round3_sub (round3 (x * m) * m⁻¹)
  have hminv : 0 < m⁻¹ := by positivity
  have hmne : m ≠ 0 := ne_of_gt hm
  have hkey : |round3 (x * m) * m⁻¹ - x| ≤ 1 / 2000 * m⁻¹ := by
    have hsplit : round3 (x * m) * m⁻¹ - x = (round3 (x * m) - x * m) * m⁻¹ := by
      field_simp
      ring
    rw [hsplit, abs_mul, abs_of_pos hminv]
    exact mul_le_mul_of_nonneg_right h1 (le_of_lt hminv)
  calc |round3 (round3 (x * m) * m⁻¹) - x|
      ≤ |round3 (round3 (x * m) * m⁻¹) - round3 (x * m) * m⁻¹| +
          |round3 (x * m) * m⁻¹ - x| := abs_sub_le _ _ _
    _ ≤ 1 / 2000 + 1 / 2000 * m⁻¹ := add_le_add h2 hkey
    _ = 1 / 2000 * (1 + m⁻¹) := by ring

/-- Counterexample to C6 as stated: scaling a serving with fat "1" by
m = 1/1000000 collapses the fat to "0.000", and scaling back by 1/m leaves
0 — one full gram away from the original, far outside 3-decimal rounding
tolerance. -/
theorem scaleServing_roundtrip_claim_false :
    ¬(|parseFloatDefault
          ((scaleServing (scaleServing { pbServing with fat := "1" } (1 / 1000000))
            ((1 / 1000000 : ℚ)⁻¹)).fat) -
        parseFloatDefault ({ pbServing with fat := "1" } : Serving).fat| ≤ 1 / 1000) := by
  have hm : (0 : ℚ) < 1 / 1000000 := by norm_num
  have hmi : (0 : ℚ) < (1 / 1000000 : ℚ)⁻¹ := by norm_num
  have h1 : (scaleServing { pbServing with fat := "1" } (1 / 1000000)).fat = "0.000" := by
    rw [scaleServing_fat_of_pos hm,
      show ({ pbServing with fat := "1" } : Serving).fat = "1" from rfl,
      parseFloatDefault_one, show (1 : ℚ) * (1 / 1000000) = 1 / 1000000 by norm_num]
    exact format3_eval (1 / 1000000) 0 (by norm_num [round_eq]) _ rfl
  have h2 : (scaleServing (scaleServing { pbServing with fat := "1" } (1 / 1000000))
      ((1 / 1000000 : ℚ)⁻¹)).fat = "0.000" := by
    rw [scaleServing_fat_of_pos hmi, h1, parseFloatDefault_zero3, zero_mul]
    exact format3_zero
  rw [h2, parseFloatDefault_zero3,
    show ({ pbServing with fat := "1" } : Serving).fat = "1" from rfl,
    parseFloatDefault_one]
  rw [show (0 : ℚ) - 1 = -1 by norm_num, abs_neg, abs_of_nonneg (by norm_num : (0 : ℚ) ≤ 1)]
  norm_num

/-- Claim C6 (amended): scaling a Serving by m > 0 and then by 1/m
returns every rescaled numeric field to within `0.0005 × (1 + 1/m)` of
its original parsed value (within 0.001 when m ≥ 1); for small m the
intermediate 3-decimal rounding can destroy up to `0.0005 / m`, so no
m-independent tolerance exists. -/
theorem scaleServing_roundtrip_bound (s : Serving) (m : ℚ) (hm : 0 < m)
    (sel : Serving → String) (hsel : sel ∈ servingNumericFields) :
    |parseFloatDefault (sel (scaleServing (scaleServing s m) m⁻¹)) -
        parseFloatDefault (sel s)| ≤ 1 / 2000 * (1 + m⁻¹) := by
  have hm' : ¬m ≤ 0 := not_le.mpr hm
  have hmi : ¬m⁻¹ ≤ 0 := not_le.mpr (by positivity)
  fin_cases hsel <;>
    · simp only [scaleServing, if_neg hm', if_neg hmi, parseFloatDefault_format3]
      exact roundtrip_core _ m hm

/-- Witness for the amended C6 at m = 2 on the gram amount. -/
theorem scaleServing_roundtrip_bound_witness :
    |parseFloatDefault ((fun s => s.metricServingAmount)
        (scaleServing (scaleServing pbServing 2) (2 : ℚ)⁻¹)) -
      parseFloatDefault ((fun s => s.metricServingAmount) pbServing)| ≤
        1 / 2000 * (1 + (2 : ℚ)⁻¹) :=
  scaleServing_roundtrip_bound pbServing 2 (by norm_num)
    (fun s => s.metricServingAmount) (List.mem_cons_self _ _)

/-! ## Claim C10 — rebalancer frame conditions -/

/-- The descriptive fields of a serving that scaling never touches. -/
def servingFrame (s : Serving) : String × String × String × String × String :=
  (s.servingID, s.servingDescription, s.measurementDescription, s.metricServingUnit,
    s.numberOfUnits)

/-- `b` differs from `a` at most in the gram amount and nutrient fields of
first servings: same length and order, same food identity fields, same
serving counts, identical servings beyond the first, and identical
descriptive fields on the first serving. -/
def FoodListFrame (a b : List Food) : Prop :=
  b.length = a.length ∧
  ∀ i : Nat,
    ((b.get? i).map Food.foodName = (a.get? i).map Food.foodName) ∧
    ((b.get? i).map Food.foodID = (a.get? i).map Food.foodID) ∧
    ((b.get? i).map Food.foodType = (a.get? i).map Food.foodType) ∧
    ((b.get? i).map Food.brandName = (a.get? i).map Food.brandName) ∧
    ((b.get? i).map (fun f => f.servings.length) =
      (a.get? i).map (fun f => f.servings.length)) ∧
    ((b.get? i).map (fun f => f.servings.tail) =
      (a.get? i).map (fun f => f.servings.tail)) ∧
    ((b.get? i).map (fun f => f.servings.head?.map servingFrame) =
      (a.get? i).map (fun f => f.servings.head?.map servingFrame))

theorem foodListFrame_refl (a : List Food) : FoodListFrame a a :=
  ⟨rfl, fun _ => ⟨rfl, rfl, rfl, rfl, rfl, rfl, rfl⟩⟩

theorem foodListFrame_trans {a b c : List Food} (h1 : FoodListFrame a b)
    (h2 : FoodListFrame b c) : FoodListFrame a c := by
  obtain ⟨hl1, hp1⟩ := h1
  obtain ⟨hl2, hp2⟩ := h2
  refine ⟨hl2.trans hl1, fun i => ?_⟩
  obtain ⟨a1, a2, a3, a4, a5, a6, a7⟩ := hp1 i
  obtain ⟨b1, b2, b3, b4, b5, b6, b7⟩ := hp2 i
  exact ⟨b1.trans a1, b2.trans a2, b3.trans a3, b4.trans a4, b5.trans a5,
    b6.trans a6, b7.trans a7⟩

theorem scaleServing_servingFrame (s : Serving) (fac : ℚ) :
    servingFrame (scaleServing s fac) = servingFrame s := by
  unfold scaleServing
  split <;> rfl

theorem scaleAt_frame (fds : List Food) (i : Nat) (fac : ℚ) :
    FoodListFrame fds (scaleAt fds i fac) := by
  cases hget : fds.get? i with
  | none => rw [scaleAt_eq_of_get_none fac hget]; exact foodListFrame_refl fds
  | some f =>
    cases hs : f.servings with
    | nil => rw [scaleAt_eq_of_servings_nil fac hget hs]; exact foodListFrame_refl fds
    | cons s rest =>
      rw [scaleAt_eq_set fac hget hs]
      refine ⟨List.length_set fds i _, fun j => ?_⟩
      by_cases hij : i = j
      · subst hij
        have hgets : (fds.set i { f with servings := scaleServing s fac :: rest }).get? i =
            some { f with servings := scaleServing s fac :: rest } := by
          rw [List.get?_set_eq, hget]
          rfl
        rw [hgets, hget]
        refine ⟨rfl, rfl, rfl, rfl, by simp [hs], by simp [hs], ?_⟩
        simp only [Option.map_some', hs, List.head?_cons]
        rw [scaleServing_servingFrame]
      · rw [List.get?_set_ne _ _ hij]
        exact ⟨rfl, rfl, rfl, rfl, rfl, rfl, rfl⟩

theorem fatStep_frame (totals target : MacroTarget) (foods : List Food) :
    FoodListFrame foods (fatStep totals target foods) := by
  by_cases h : totals.fats < target.fats * (1 - 1 / 20)
  · cases hidx : findBestFatFoodIndex foods with
    | none => rw [fatStep_eq_of_none h hidx]; exact foodListFrame_refl foods
    | some idx =>
      cases hget : foods.get? idx with
      | none => rw [fatStep_eq_of_get_none h hidx hget]; exact foodListFrame_refl foods
      | some f =>
        cases hs : f.servings with
        | nil =>
          rw [fatStep_eq_of_servings_nil h hidx hget hs]
          exact foodListFrame_refl foods
        | cons s rest =>
          by_cases hfat : 0 < parseFloatDefault s.fat
          · rw [fatStep_eq_scaleAt h hidx hget hs hfat]
            exact scaleAt_frame foods idx _
          · rw [fatStep_eq_of_fat_nonpos h hidx hget hs hfat]
            exact foodListFrame_refl foods
  · unfold fatStep
    rw [if_neg h]
    exact foodListFrame_refl foods

theorem foldl_scaleAt_frame (fac : ℚ) :
    ∀ (idxs : List Nat) (fds : List Food),
      FoodListFrame fds (idxs.foldl (fun l i => scaleAt l i fac) fds) := by
  intro idxs
  induction idxs with
  | nil => intro fds; exact foodListFrame_refl fds
  | cons i rest ih =>
    intro fds
    rw [List.foldl_cons]
    exact foodListFrame_trans (scaleAt_frame fds i fac) (ih (scaleAt fds i fac))

theorem carbStep_frame (totals target : MacroTarget) (fds : List Food) :
    FoodListFrame fds (carbStep totals target fds) := by
  by_cases h : target.carbs * (1 + 1 / 20) < totals.carbs
  · cases hemp : (findStarchyCarbIndexes fds).isEmpty with
    | true => rw [carbStep_eq_of_empty h hemp]; exact foodListFrame_refl fds
    | false =>
      by_cases hS : 0 < starchCarbSum fds (findStarchyCarbIndexes fds)
      · rw [carbStep_eq_foldl h hemp hS]
        exact foldl_scaleAt_frame _ (findStarchyCarbIndexes fds) fds
      · rw [carbStep_eq_of_S_nonpos h hemp hS]
        exact foodListFrame_refl fds
  · rw [carbStep_eq_of_no_excess h]
    exact foodListFrame_refl fds

/-- Claim C10: `rebalanceMealFoods` keeps the food list's length and
order, every food's name and identity fields, every serving beyond the
first, and every descriptive field of the first serving; only the first
serving's gram amount and nutrient fields can change. -/
theorem rebalanceMealFoods_frame (foods : List Food) (target : MacroTarget) :
    FoodListFrame foods (rebalanceMealFoods foods target) := by
  have hpass : ∀ l : List Food, FoodListFrame l (rebalancePass l target) := by
    intro l
    exact foodListFrame_trans (fatStep_frame (calculateMealMacros l) target l)
      (carbStep_frame (calculateMealMacros l) target _)
  exact foodListFrame_trans (hpass foods) (hpass (rebalancePass foods target))

/-! ## Claim C3 — Concurrent Food Resolver result map -/

/-- Claim C3: the resolver's result map has exactly one entry per unique
input name (a food or an absence marker), and the lookup is performed once
per unique name even when a name occurs in several meals — modelled by the
sequential denotation of the fork-join loop. -/
theorem batchFetchFoods_one_entry_per_name (meals : List (List String))
    (lookup : String → Option (List Food)) (n : String) :
    ((batchFetchFoods lookup (collectUniqueFoods meals)).map Prod.fst =
      collectUniqueFoods meals) ∧
    ((collectUniqueFoods meals).count n = if n ∈ meals.flatten then 1 else 0) ∧
    ((∃ r, (n, r) ∈ batchFetchFoods lookup (collectUniqueFoods meals)) ↔
      n ∈ meals.flatten) := by
  refine ⟨?_, ?_, ?_⟩
  · simp only [batchFetchFoods, List.map_map]
    have : (Prod.fst ∘ fun name => (name, fetchOne lookup name)) = id := by
      funext x
      rfl
    rw [this, List.map_id]
  · simp [collectUniqueFoods, List.count_dedup]
  · constructor
    · rintro ⟨r, hr⟩
      simp only [batchFetchFoods, List.mem_map] at hr
      obtain ⟨m, hm, heq⟩ := hr
      obtain ⟨h1, -⟩ := Prod.mk.injEq .. ▸ heq
      rw [← h1]
      exact List.mem_dedup.mp hm
    · intro h
      refine ⟨fetchOne lookup n, ?_⟩
      simp only [batchFetchFoods, List.mem_map]
      exact ⟨n, List.mem_dedup.mpr h, rfl⟩

end MealGen
